import Mathlib

/-!
Shallow embedding of the khos-file-editor synchronization/persistence core.

The repository contains two near-duplicate `Editor` components:
a remote-backed variant (Supabase row store + blob storage) and a
local-backed variant (browser localStorage).  We embed the state and the
event handlers of both variants.  Remote store calls are nondeterministic
from the component's point of view, so each handler takes the outcome of
its store call(s) as an explicit argument (an oracle); the row-store
contract "insert-one returns the created row" is modelled by having a
successful insert return the server-assigned id and timestamp, the row's
remaining columns being exactly the inserted values.

JS string primitives used by the source (`trim`, `split` with a
one-character separator, `Array.prototype.pop` on a split result) are
embedded as structural functions on character lists so that every
definition evaluates by kernel reduction.  `Number.prototype.toFixed(1)`
applied to `bytes / 1024` and `bytes / 1048576` is embedded over `Nat`:
for sizes below 2^53 the division by a power of two is exact in binary
floating point, and `toFixed` then rounds the exact value half-up, which
is what the `Nat` formula below computes.
-/

namespace FileEditor

/-- JS `String.prototype.trim` on the character list: drop leading and
trailing whitespace. -/
def trimChars (l : List Char) : List Char :=
  ((l.dropWhile Char.isWhitespace).reverse.dropWhile Char.isWhitespace).reverse

/-- JS `text.trim()`. -/
def jsTrim (s : String) : String :=
  ⟨trimChars s.data⟩

/-- JS `String.prototype.split(sep)` for a one-character separator:
always returns at least one (possibly empty) segment. -/
def splitChars (sep : Char) : List Char → List (List Char)
  | [] => [[]]
  | c :: t =>
    match splitChars sep t with
    | h :: r => if c = sep then [] :: h :: r else (c :: h) :: r
    | [] => [[c]]

/-- JS `s.split(sep).pop()`: the last segment of the split (the split is
never empty, so `pop` always yields a string, possibly `""`). -/
def lastSegment (sep : Char) (s : String) : String :=
  ⟨(splitChars sep s.data).getLastD []⟩

/-- Embedding of `(bytes / d).toFixed(1)` for `d` a power of two and
`bytes < 2^53`: the quotient is exact in binary floating point and
`toFixed(1)` rounds it half-up to one decimal digit. -/
def toFixed1 (bytes d : Nat) : String :=
  let n : Nat := (20 * bytes + d) / (2 * d)
  toString (n / 10) ++ "." ++ toString (n % 10)

/-- `formatFileSize` (identical in both Editor variants, src/unnamed/part_001
lines 195-199 and 487-491). -/
def formatFileSize (bytes : Nat) : String :=
  if bytes < 1024 then toString bytes ++ " B"
  else if bytes < 1024 * 1024 then toFixed1 bytes 1024 ++ " KB"
  else toFixed1 bytes (1024 * 1024) ++ " MB"

/-- Strict lexicographic comparison of character lists by code point;
this is the order in which ISO 8601 timestamp strings compare, i.e.
chronological order. -/
def charListLt : List Char → List Char → Bool
  | [], [] => false
  | [], _ :: _ => true
  | _ :: _, [] => false
  | a :: as, b :: bs =>
    if a.toNat < b.toNat then true
    else if b.toNat < a.toNat then false
    else charListLt as bs

/-- `a` is strictly earlier than `b` as a timestamp string. -/
def timeLt (a b : String) : Bool :=
  charListLt a.data b.data

/-- A list of timestamp strings is in descending (newest-first) order:
no adjacent pair is strictly increasing. -/
def timesSortedDesc : List String → Bool
  | [] => true
  | [_] => true
  | a :: b :: t => if timeLt a b then false else timesSortedDesc (b :: t)

namespace Remote

/-- Row shape of the `messages` table (src/unnamed/part_001 lines 8-12). -/
structure Message where
  id : String
  content : String
  created_at : String
  deriving Repr, DecidableEq

/-- Row shape of the `files` table (src/unnamed/part_001 lines 14-21). -/
structure FileItem where
  id : String
  name : String
  size : Nat
  type : String
  url : String
  created_at : String
  deriving Repr, DecidableEq

/-- A browser `File` handed to the upload handler: the fields the remote
handler reads (`name`, `size`, `type`). -/
structure UploadFile where
  name : String
  size : Nat
  type : String
  deriving Repr, DecidableEq

/-- The component state the handlers mutate: the textarea value and the
two in-memory lists. -/
structure EditorState where
  text : String
  messages : List Message
  files : List FileItem
  deriving Repr, DecidableEq

/-- Outcome of `supabase.from('messages').insert(...).select().single()`:
on success the store returns the created row, i.e. the server-assigned
`id` and `created_at` together with the inserted content. -/
inductive InsertResult where
  | ok (id created_at : String)
  | fail
  deriving Repr, DecidableEq

/-- `handleSave`, remote variant (src/unnamed/part_001 lines 52-67):
no-op when the trimmed text is empty; otherwise insert a row with the
trimmed content and, exactly when the store returns a row and no error,
prepend that row and clear the textarea. -/
def handleSave (s : EditorState) (r : InsertResult) : EditorState :=
  if jsTrim s.text = "" then s
  else
    match r with
    | .ok i t =>
        { text := "",
          messages := { id := i, content := jsTrim s.text, created_at := t } :: s.messages,
          files := s.files }
    | .fail => s

/-- `handleReset` (src/unnamed/part_001 lines 69-71). -/
def handleReset (s : EditorState) : EditorState :=
  { s with text := "" }

/-- `handleDeleteMessage` (src/unnamed/part_001 lines 73-78): delete the
row by id; exactly when the store reports no error, filter the message
out of in-memory state. -/
def handleDeleteMessage (s : EditorState) (msgId : String) (deleteOk : Bool) : EditorState :=
  if deleteOk then { s with messages := s.messages.filter (fun m => m.id != msgId) } else s

/-- `handleDeleteAllMessages` (src/unnamed/part_001 lines 80-90): after
interactive confirmation, bulk-delete all listed ids; on success clear
the in-memory list. -/
def handleDeleteAllMessages (s : EditorState) (confirmed deleteOk : Bool) : EditorState :=
  if confirmed then (if deleteOk then { s with messages := [] } else s) else s

/-- The Supabase project URL (src/unnamed/part_000 line 29). -/
def supabaseUrl : String := "https://vornmactqtkaisubysau.supabase.co"

/-- `getPublicUrl(fileName)` for the `files` bucket: deterministic
function of the storage key. -/
def publicUrl (fileName : String) : String :=
  supabaseUrl ++ "/storage/v1/object/public/files/" ++ fileName

/-- The randomized storage key `uuid.ext` built by the upload loop
(src/unnamed/part_001 lines 99-100): the extension is the last
`.`-separated segment of the original file name. -/
def storageKey (uuid name : String) : String :=
  uuid ++ "." ++ lastSegment '.' name

/-- Per-file outcome of one iteration of the remote upload loop:
the blob upload errors, or it succeeds (under key `uuid.ext`) but the
row insert fails, or both succeed and the store returns the created
row's `id` and `created_at`. -/
inductive FileOutcome where
  | uploadFail
  | insertFail (uuid : String)
  | inserted (uuid id created_at : String)
  deriving Repr, DecidableEq

/-- One iteration of the remote upload loop (src/unnamed/part_001 lines
98-132): on upload error, `continue` (state untouched); on insert
failure, nothing is prepended; on full success, the returned row —
whose url is the public URL of the randomized key — is prepended
individually. -/
def uploadStep (s : EditorState) (f : UploadFile) (o : FileOutcome) : EditorState :=
  match o with
  | .uploadFail => s
  | .insertFail _ => s
  | .inserted uuid i t =>
      { s with files :=
          { id := i, name := f.name, size := f.size, type := f.type,
            url := publicUrl (storageKey uuid f.name), created_at := t } :: s.files }

/-- `handleFileUpload`, remote variant (src/unnamed/part_001 lines
92-139): the batch is processed sequentially, each file paired with the
outcome of its two store calls. -/
def handleFileUpload (s : EditorState) (batch : List (UploadFile × FileOutcome)) : EditorState :=
  batch.foldl (fun st p => uploadStep st p.1 p.2) s

/-- The row a fully successful iteration prepends for a given file, if
any. -/
def rowOf (p : UploadFile × FileOutcome) : Option FileItem :=
  match p.2 with
  | .inserted uuid i t =>
      some { id := i, name := p.1.name, size := p.1.size, type := p.1.type,
             url := publicUrl (storageKey uuid p.1.name), created_at := t }
  | _ => none

/-- Whether an iteration's outcome is a full success. -/
def outcomeOk : FileOutcome → Bool
  | .inserted _ _ _ => true
  | _ => false

/-- Observable effect of `handleDeleteFile`: which storage key (if any)
the blob `remove` call was issued for, that the row delete was reached,
and the resulting component state. -/
structure DeleteFileTrace where
  blobRemoveRequest : Option String
  rowDeleteAttempted : Bool
  state : EditorState
  deriving Repr, DecidableEq

/-- `handleDeleteFile` (src/unnamed/part_001 lines 141-155): the storage
key is the last `/`-separated segment of the file's URL; the blob
removal is issued only when that segment is truthy (non-empty) and its
outcome (`blobRemoveOk`) is ignored — the row delete is reached
unconditionally; the item is filtered out of in-memory state exactly
when the row delete succeeds. -/
def handleDeleteFile (s : EditorState) (f : FileItem)
    (blobRemoveOk rowDeleteOk : Bool) : DeleteFileTrace :=
  let fileName := lastSegment '/' f.url
  { blobRemoveRequest := if fileName = "" then none else some fileName,
    rowDeleteAttempted := true,
    state :=
      if rowDeleteOk then
        let _ := blobRemoveOk
        { s with files := s.files.filter (fun g => g.id != f.id) }
      else s }

/-- `handleDeleteAllFiles` (src/unnamed/part_001 lines 157-176): after
confirmation, best-effort bulk blob removal (outcome ignored), then
bulk row delete; on success clear the in-memory list. -/
def handleDeleteAllFiles (s : EditorState) (confirmed deleteOk : Bool) : EditorState :=
  if confirmed then (if deleteOk then { s with files := [] } else s) else s

end Remote

namespace LocalV

/-- Message shape of the local variant (src/unnamed/part_001 lines
379-383): id and createdAt are generated client-side. -/
structure Message where
  id : String
  content : String
  createdAt : String
  deriving Repr, DecidableEq

/-- FileItem shape of the local variant (src/unnamed/part_001 lines
385-392): the payload is embedded as a data URL string. -/
structure FileItem where
  id : String
  name : String
  size : Nat
  type : String
  data : String
  createdAt : String
  deriving Repr, DecidableEq

/-- A browser `File` handed to the local upload handler, together with
the data-URL string its `FileReader` step resolves to. -/
structure RawFile where
  name : String
  size : Nat
  type : String
  dataUrl : String
  deriving Repr, DecidableEq

/-- Component state of the local variant.  `messages` and `files` are
held by the `useLocalStorage` hook; `storedMessages` and `storedFiles`
model the contents of the two fixed localStorage keys
(`khos-file-editor-messages`, `khos-file-editor-files`). -/
structure EditorState where
  text : String
  messages : List Message
  files : List FileItem
  storedMessages : List Message
  storedFiles : List FileItem
  deriving Repr, DecidableEq

/-- Modelled from the spec: the `useLocalStorage` hook (imported from
`@/hooks/useLocalStorage`, whose source is not under src/).  Per the
spec, "every state update is mirrored to storage immediately, keyed by
the two fixed keys": a message-list update writes both the in-memory
list and the persistent key. -/
def setMessages (s : EditorState) (ms : List Message) : EditorState :=
  { s with messages := ms, storedMessages := ms }

/-- Modelled from the spec: the `useLocalStorage` hook's setter for the
file list — the update is mirrored to the persistent key immediately. -/
def setFiles (s : EditorState) (fs : List FileItem) : EditorState :=
  { s with files := fs, storedFiles := fs }

/-- Modelled from the spec: initial state of the `useLocalStorage` hook
— "state initializes directly from whatever is already in persistent
storage at startup"; the textarea starts empty. -/
def initFromStorage (storedM : List Message) (storedF : List FileItem) : EditorState :=
  { text := "", messages := storedM, files := storedF,
    storedMessages := storedM, storedFiles := storedF }

/-- A page reload: re-read the two fixed keys and re-initialize. -/
def reload (s : EditorState) : EditorState :=
  initFromStorage s.storedMessages s.storedFiles

/-- `handleSave`, local variant (src/unnamed/part_001 lines 401-412):
no-op when the trimmed text is empty; otherwise prepend a new message
with client-generated id and timestamp and clear the textarea. -/
def handleSave (s : EditorState) (uuid now : String) : EditorState :=
  if jsTrim s.text = "" then s
  else
    { setMessages s ({ id := uuid, content := jsTrim s.text, createdAt := now } :: s.messages)
      with text := "" }

/-- `handleReset`, local variant (src/unnamed/part_001 lines 414-416). -/
def handleReset (s : EditorState) : EditorState :=
  { s with text := "" }

/-- `handleDeleteMessage`, local variant (src/unnamed/part_001 lines
418-420). -/
def handleDeleteMessage (s : EditorState) (msgId : String) : EditorState :=
  setMessages s (s.messages.filter (fun m => m.id != msgId))

/-- `handleDeleteAllMessages`, local variant (src/unnamed/part_001 lines
422-426): clears the list only when the confirmation dialog is
accepted. -/
def handleDeleteAllMessages (s : EditorState) (confirmed : Bool) : EditorState :=
  if confirmed then setMessages s [] else s

/-- The batch of items the local upload loop accumulates, in input
order: each file paired with its client-generated uuid and its own
`new Date().toISOString()` taken when that file's read completes. -/
def newFileItems (batch : List (RawFile × String × String)) : List FileItem :=
  batch.map fun p =>
    { id := p.2.1, name := p.1.name, size := p.1.size, type := p.1.type,
      data := p.1.dataUrl, createdAt := p.2.2 }

/-- `handleFileUpload`, local variant (src/unnamed/part_001 lines
428-459): files are read sequentially, pushed onto `newFiles` in input
order, and the whole batch is prepended at once
(`[...newFiles, ...prev]`). -/
def handleFileUpload (s : EditorState) (batch : List (RawFile × String × String)) : EditorState :=
  setFiles s (newFileItems batch ++ s.files)

/-- `handleDeleteFile`, local variant (src/unnamed/part_001 lines
461-463). -/
def handleDeleteFile (s : EditorState) (fileId : String) : EditorState :=
  setFiles s (s.files.filter (fun f => f.id != fileId))

/-- `handleDeleteAllFiles`, local variant (src/unnamed/part_001 lines
465-469). -/
def handleDeleteAllFiles (s : EditorState) (confirmed : Bool) : EditorState :=
  if confirmed then setFiles s [] else s

/-- The user-level operations of a local-variant session, with their
client-generated data (uuids, timestamps, read results) as payload. -/
inductive LOp where
  | setTextOp (t : String)
  | resetOp
  | saveOp (uuid now : String)
  | deleteMessageOp (msgId : String)
  | deleteAllMessagesOp (confirmed : Bool)
  | uploadOp (batch : List (RawFile × String × String))
  | deleteFileOp (fileId : String)
  | deleteAllFilesOp (confirmed : Bool)
  deriving Repr, DecidableEq

/-- Dispatch one operation to its handler. -/
def stepOp (s : EditorState) : LOp → EditorState
  | .setTextOp t => { s with text := t }
  | .resetOp => handleReset s
  | .saveOp uuid now => handleSave s uuid now
  | .deleteMessageOp i => handleDeleteMessage s i
  | .deleteAllMessagesOp c => handleDeleteAllMessages s c
  | .uploadOp b => handleFileUpload s b
  | .deleteFileOp i => handleDeleteFile s i
  | .deleteAllFilesOp c => handleDeleteAllFiles s c

/-- Run a finite session: a sequence of operations from a given state. -/
def runOps (s : EditorState) (ops : List LOp) : EditorState :=
  ops.foldl stepOp s

/-- The file list is in newest-first (createdAt descending) order. -/
def filesSortedDesc (l : List FileItem) : Bool :=
  timesSortedDesc (l.map FileItem.createdAt)

end LocalV

/-! Concrete inputs used by witness and counterexample theorems. -/

/-- A concrete local-variant file input. -/
def exRaw1 : LocalV.RawFile :=
  { name := "a.txt", size := 3, type := "text/plain", dataUrl := "data:text/plain;base64,YWJj" }

/-- A second concrete local-variant file input. -/
def exRaw2 : LocalV.RawFile :=
  { name := "b.txt", size := 4, type := "text/plain", dataUrl := "data:text/plain;base64,d3h5eg==" }

/-- A local-variant state with empty lists and empty textarea. -/
def exLocal0 : LocalV.EditorState :=
  { text := "", messages := [], files := [],
    storedMessages := [], storedFiles := [] }

/-- A two-file batch whose per-file timestamps were assigned in
sequence (the second file's read completed one second after the
first's), as the local upload loop assigns them. -/
def exBatchInc : List (LocalV.RawFile × String × String) :=
  [(exRaw1, "id-1", "2024-01-01T00:00:00Z"),
   (exRaw2, "id-2", "2024-01-01T00:00:01Z")]

/-- A single-file local batch. -/
def exBatch1 : List (LocalV.RawFile × String × String) :=
  [(exRaw1, "id-1", "2024-01-01T00:00:00Z")]

/-- A concrete local-variant message. -/
def exLMsg1 : LocalV.Message :=
  { id := "m-1", content := "first", createdAt := "2023-12-31T00:00:00Z" }

/-- A second concrete local-variant message. -/
def exLMsg2 : LocalV.Message :=
  { id := "m-2", content := "second", createdAt := "2023-12-30T00:00:00Z" }

/-- A local-variant state whose textarea holds text with whitespace
around it and whose message list is non-empty. -/
def exLocalHi : LocalV.EditorState :=
  { text := " hi ", messages := [exLMsg1], files := [],
    storedMessages := [exLMsg1], storedFiles := [] }

/-- A local-variant state whose textarea holds only whitespace. -/
def exLocalWs : LocalV.EditorState :=
  { text := "   ", messages := [exLMsg1], files := [],
    storedMessages := [exLMsg1], storedFiles := [] }

/-- A local-variant state holding two messages with distinct ids. -/
def exLocal2 : LocalV.EditorState :=
  { text := "", messages := [exLMsg1, exLMsg2], files := [],
    storedMessages := [exLMsg1, exLMsg2], storedFiles := [] }

/-- A concrete remote-variant message row. -/
def exRMsg1 : Remote.Message :=
  { id := "r-1", content := "first", created_at := "2023-12-31T00:00:00Z" }

/-- A second concrete remote-variant message row. -/
def exRMsg2 : Remote.Message :=
  { id := "r-2", content := "second", created_at := "2023-12-30T00:00:00Z" }

/-- A concrete remote-variant file row. -/
def exRemoteFile : Remote.FileItem :=
  { id := "f-1", name := "a.txt", size := 3, type := "text/plain",
    url := Remote.publicUrl "u-1.txt", created_at := "2023-12-31T00:00:00Z" }

/-- A remote-variant state whose textarea holds text with whitespace
around it. -/
def exRemoteHi : Remote.EditorState :=
  { text := " hi ", messages := [exRMsg1], files := [exRemoteFile] }

/-- A remote-variant state whose textarea holds only whitespace. -/
def exRemoteWs : Remote.EditorState :=
  { text := "   ", messages := [exRMsg1], files := [exRemoteFile] }

/-- A remote-variant state holding two messages with distinct ids. -/
def exRemote2 : Remote.EditorState :=
  { text := "", messages := [exRMsg1, exRMsg2], files := [] }

/-- Concrete browser files for a remote upload batch. -/
def exUpA : Remote.UploadFile := { name := "a.txt", size := 3, type := "text/plain" }

/-- Second concrete browser file. -/
def exUpB : Remote.UploadFile := { name := "b.png", size := 9, type := "image/png" }

/-- Third concrete browser file. -/
def exUpC : Remote.UploadFile := { name := "c.pdf", size := 7, type := "application/pdf" }

/-- A fully successful outcome for the first file of a remote batch. -/
def exOutA : Remote.FileOutcome := .inserted "u-a" "f-a" "2024-01-01T00:00:00Z"

/-- A fully successful outcome for the third file of a remote batch. -/
def exOutC : Remote.FileOutcome := .inserted "u-c" "f-c" "2024-01-01T00:00:02Z"

/-! Helper lemmas (shared; not claim theorems). -/

/-- Closed form of the remote upload loop: the rows of the fully
successful iterations are prepended one by one, so they end up in
reverse batch order in front of the previous list; textarea and
messages are untouched. -/
theorem Remote.handleFileUpload_eq (L : List (Remote.UploadFile × Remote.FileOutcome))
    (s : Remote.EditorState) :
    Remote.handleFileUpload s L =
      { text := s.text, messages := s.messages,
        files := (L.filterMap Remote.rowOf).reverse ++ s.files } := by
  induction L generalizing s with
  | nil => simp [Remote.handleFileUpload]
  | cons p t ih =>
    obtain ⟨f, o⟩ := p
    have hcons : Remote.handleFileUpload s ((f, o) :: t)
        = Remote.handleFileUpload (Remote.uploadStep s f o) t := rfl
    cases o with
    | uploadFail =>
        rw [hcons, ih]
        simp [Remote.uploadStep, Remote.rowOf]
    | insertFail u =>
        rw [hcons, ih]
        simp [Remote.uploadStep, Remote.rowOf]
    | inserted u i t2 =>
        rw [hcons, ih]
        simp [Remote.uploadStep, Remote.rowOf, List.filterMap_cons]

/-- When every iteration of a batch fully succeeds, it contributes one
row per file. -/
theorem Remote.filterMap_rowOf_length (L : List (Remote.UploadFile × Remote.FileOutcome))
    (h : ∀ p ∈ L, Remote.outcomeOk p.2 = true) :
    (L.filterMap Remote.rowOf).length = L.length := by
  induction L with
  | nil => rfl
  | cons p t ih =>
    have hp := h p (List.mem_cons_self p t)
    have ht := ih fun q hq => h q (List.mem_cons_of_mem p hq)
    obtain ⟨f, o⟩ := p
    cases o with
    | uploadFail => exact absurd hp (by simp [Remote.outcomeOk])
    | insertFail u => exact absurd hp (by simp [Remote.outcomeOk])
    | inserted u i t2 => simp [Remote.rowOf, List.filterMap_cons, ht]

/-- Filtering by "id differs" keeps a list none of whose elements carry
the id. -/
theorem filter_bne_of_absent {α : Type} (f : α → String) (mid : String) (l : List α)
    (h : ∀ x ∈ l, f x ≠ mid) :
    l.filter (fun x => f x != mid) = l := by
  refine List.filter_eq_self.mpr fun x hx => ?_
  simpa [bne_iff_ne] using h x hx

/-- Filtering by "id differs" on a list that contains exactly one
element with the id removes exactly that element. -/
theorem filter_bne_of_split {α : Type} (f : α → String) (mid : String)
    (a b : List α) (m : α) (hm : f m = mid)
    (ha : ∀ x ∈ a, f x ≠ mid) (hb : ∀ x ∈ b, f x ≠ mid) :
    (a ++ m :: b).filter (fun x => f x != mid) = a ++ b := by
  have h1 := filter_bne_of_absent f mid a ha
  have h2 := filter_bne_of_absent f mid b hb
  have h3 : (f m != mid) = false := by simp [hm]
  simp [List.filter_append, List.filter_cons, h1, h2, h3]

/-- One local-variant step keeps the persistent keys in sync with the
in-memory lists. -/
theorem LocalV.stepOp_mirrors (s : LocalV.EditorState) (op : LocalV.LOp)
    (hm : s.storedMessages = s.messages) (hf : s.storedFiles = s.files) :
    (LocalV.stepOp s op).storedMessages = (LocalV.stepOp s op).messages ∧
    (LocalV.stepOp s op).storedFiles = (LocalV.stepOp s op).files := by
  cases op <;>
    simp only [LocalV.stepOp, LocalV.handleSave, LocalV.handleReset,
      LocalV.handleDeleteMessage, LocalV.handleDeleteAllMessages, LocalV.handleFileUpload,
      LocalV.handleDeleteFile, LocalV.handleDeleteAllFiles, LocalV.setMessages,
      LocalV.setFiles] <;>
    first
      | exact ⟨hm, hf⟩
      | (split_ifs <;> simp_all)
      | simp_all

/-- A whole local-variant session keeps the persistent keys in sync
with the in-memory lists. -/
theorem LocalV.runOps_mirrors (ops : List LocalV.LOp) (s : LocalV.EditorState)
    (hm : s.storedMessages = s.messages) (hf : s.storedFiles = s.files) :
    (LocalV.runOps s ops).storedMessages = (LocalV.runOps s ops).messages ∧
    (LocalV.runOps s ops).storedFiles = (LocalV.runOps s ops).files := by
  induction ops generalizing s with
  | nil => exact ⟨hm, hf⟩
  | cons op t ih =>
    have h := LocalV.stepOp_mirrors s op hm hf
    exact ih (LocalV.stepOp s op) h.1 h.2

/-! Claim theorems. -/

/-- C4: in the remote variant, a failed message insert leaves the whole
component state unchanged — the message list untouched, no optimistic
item added, and the input text preserved — and a failed message delete
likewise leaves the state unchanged. -/
theorem c4_remote_failure_noop :
    (∀ s : Remote.EditorState, Remote.handleSave s Remote.InsertResult.fail = s) ∧
    (∀ (s : Remote.EditorState) (msgId : String),
      Remote.handleDeleteMessage s msgId false = s) := by
  constructor
  · intro s
    unfold Remote.handleSave
    split <;> rfl
  · intro s msgId
    rfl

/-- C5: `formatFileSize` returns the byte count with " B" below 1024,
the value divided by 1024 rendered with one decimal and " KB" from 1024
up to 1048575, and the value divided by 1048576 rendered with one
decimal and " MB" from 1048576 on; in particular the three boundary
values of the claim. -/
theorem c5_formatFileSize :
    formatFileSize 1023 = "1023 B" ∧
    formatFileSize 1024 = "1.0 KB" ∧
    formatFileSize 1048576 = "1.0 MB" ∧
    (∀ b, b < 1024 → formatFileSize b = toString b ++ " B") ∧
    (∀ b, 1024 ≤ b → b < 1048576 → formatFileSize b = toFixed1 b 1024 ++ " KB") ∧
    (∀ b, 1048576 ≤ b → formatFileSize b = toFixed1 b (1024 * 1024) ++ " MB") := by
  refine ⟨by decide, by decide, by decide, ?_, ?_, ?_⟩
  · intro b h
    simp [formatFileSize, h]
  · intro b h1 h2
    unfold formatFileSize
    rw [if_neg (by omega), if_pos (by omega)]
  · intro b h
    unfold formatFileSize
    rw [if_neg (by omega), if_neg (by omega)]

/-- C5 witness: the three guarded branches evaluated at concrete
inputs. -/
theorem c5_formatFileSize_witness :
    formatFileSize 500 = toString 500 ++ " B" ∧
    formatFileSize 2048 = toFixed1 2048 1024 ++ " KB" ∧
    formatFileSize 5000000 = toFixed1 5000000 (1024 * 1024) ++ " MB" :=
  ⟨c5_formatFileSize.2.2.2.1 500 (by decide),
   c5_formatFileSize.2.2.2.2.1 2048 (by decide) (by decide),
   c5_formatFileSize.2.2.2.2.2 5000000 (by decide)⟩

/-- C2: for input text whose trimmed form is non-empty, a successful
save in both variants adds exactly one new message whose content is the
trimmed text, placed at the front of the list, with all previous
messages unchanged in order, and clears the input text. -/
theorem c2_save_prepends_trimmed (s : Remote.EditorState) (sl : LocalV.EditorState)
    (i t uuid now : String)
    (hs : jsTrim s.text ≠ "") (hl : jsTrim sl.text ≠ "") :
    Remote.handleSave s (Remote.InsertResult.ok i t) =
      { text := "",
        messages := { id := i, content := jsTrim s.text, created_at := t } :: s.messages,
        files := s.files } ∧
    LocalV.handleSave sl uuid now =
      { sl with
        text := "",
        messages := { id := uuid, content := jsTrim sl.text, createdAt := now } :: sl.messages,
        storedMessages :=
          { id := uuid, content := jsTrim sl.text, createdAt := now } :: sl.messages } := by
  constructor
  · unfold Remote.handleSave
    rw [if_neg hs]
  · unfold LocalV.handleSave
    rw [if_neg hl]
    rfl

/-- C2 witness: saving " hi " on concrete states in both variants. -/
theorem c2_save_prepends_trimmed_witness :
    Remote.handleSave exRemoteHi (Remote.InsertResult.ok "r-9" "2024-01-02T00:00:00Z") =
      { text := "",
        messages :=
          { id := "r-9", content := jsTrim exRemoteHi.text,
            created_at := "2024-01-02T00:00:00Z" } :: exRemoteHi.messages,
        files := exRemoteHi.files } ∧
    LocalV.handleSave exLocalHi "m-9" "2024-01-02T00:00:00Z" =
      { exLocalHi with
        text := "",
        messages :=
          { id := "m-9", content := jsTrim exLocalHi.text,
            createdAt := "2024-01-02T00:00:00Z" } :: exLocalHi.messages,
        storedMessages :=
          { id := "m-9", content := jsTrim exLocalHi.text,
            createdAt := "2024-01-02T00:00:00Z" } :: exLocalHi.messages } :=
  c2_save_prepends_trimmed exRemoteHi exLocalHi "r-9" "2024-01-02T00:00:00Z"
    "m-9" "2024-01-02T00:00:00Z" (by decide) (by decide)

/-- C6: a successful delete-by-id removes exactly the message carrying
the given id and no other, preserving the order of the rest, in both
variants; if no listed message has the id, the list is unchanged. -/
theorem c6_delete_exact :
    (∀ (s : Remote.EditorState) (mid : String) (a b : List Remote.Message)
        (m : Remote.Message),
      s.messages = a ++ m :: b → m.id = mid →
      (∀ x ∈ a, x.id ≠ mid) → (∀ x ∈ b, x.id ≠ mid) →
      (Remote.handleDeleteMessage s mid true).messages = a ++ b) ∧
    (∀ (s : Remote.EditorState) (mid : String),
      (∀ x ∈ s.messages, x.id ≠ mid) →
      (Remote.handleDeleteMessage s mid true).messages = s.messages) ∧
    (∀ (s : LocalV.EditorState) (mid : String) (a b : List LocalV.Message)
        (m : LocalV.Message),
      s.messages = a ++ m :: b → m.id = mid →
      (∀ x ∈ a, x.id ≠ mid) → (∀ x ∈ b, x.id ≠ mid) →
      (LocalV.handleDeleteMessage s mid).messages = a ++ b) ∧
    (∀ (s : LocalV.EditorState) (mid : String),
      (∀ x ∈ s.messages, x.id ≠ mid) →
      (LocalV.handleDeleteMessage s mid).messages = s.messages) := by
  refine ⟨?_, ?_, ?_, ?_⟩
  · intro s mid a b m hsplit hm ha hb
    have : (Remote.handleDeleteMessage s mid true).messages
        = s.messages.filter (fun x => x.id != mid) := by
      simp [Remote.handleDeleteMessage]
    rw [this, hsplit]
    exact filter_bne_of_split Remote.Message.id mid a b m hm ha hb
  · intro s mid h
    have : (Remote.handleDeleteMessage s mid true).messages
        = s.messages.filter (fun x => x.id != mid) := by
      simp [Remote.handleDeleteMessage]
    rw [this]
    exact filter_bne_of_absent Remote.Message.id mid s.messages h
  · intro s mid a b m hsplit hm ha hb
    have : (LocalV.handleDeleteMessage s mid).messages
        = s.messages.filter (fun x => x.id != mid) := rfl
    rw [this, hsplit]
    exact filter_bne_of_split LocalV.Message.id mid a b m hm ha hb
  · intro s mid h
    have : (LocalV.handleDeleteMessage s mid).messages
        = s.messages.filter (fun x => x.id != mid) := rfl
    rw [this]
    exact filter_bne_of_absent LocalV.Message.id mid s.messages h

/-- C6 witness: deleting id "r-2"/"m-2" from a concrete two-message
list removes exactly the second message, and deleting an id absent from
the list changes nothing, in both variants. -/
theorem c6_delete_exact_witness :
    (Remote.handleDeleteMessage exRemote2 "r-2" true).messages = [exRMsg1] ++ [] ∧
    (Remote.handleDeleteMessage exRemote2 "zzz" true).messages = exRemote2.messages ∧
    (LocalV.handleDeleteMessage exLocal2 "m-2").messages = [exLMsg1] ++ [] ∧
    (LocalV.handleDeleteMessage exLocal2 "zzz").messages = exLocal2.messages :=
  ⟨c6_delete_exact.1 exRemote2 "r-2" [exRMsg1] [] exRMsg2 rfl rfl
      (by decide) (by decide),
   c6_delete_exact.2.1 exRemote2 "zzz" (by decide),
   c6_delete_exact.2.2.1 exLocal2 "m-2" [exLMsg1] [] exLMsg2 rfl rfl
      (by decide) (by decide),
   c6_delete_exact.2.2.2 exLocal2 "zzz" (by decide)⟩

/-- C7: deleteFile derives the blob key from the tail segment of the
file's URL; the blob removal is best-effort — the resulting trace does
not depend on the blob removal's outcome and the row delete is reached
regardless — and the item is removed from the in-memory file list
exactly when the row delete succeeds. -/
theorem c7_deleteFile_best_effort :
    (∀ (s : Remote.EditorState) (f : Remote.FileItem) (b1 b2 rOk : Bool),
      Remote.handleDeleteFile s f b1 rOk = Remote.handleDeleteFile s f b2 rOk) ∧
    (∀ (s : Remote.EditorState) (f : Remote.FileItem) (bOk rOk : Bool),
      (Remote.handleDeleteFile s f bOk rOk).rowDeleteAttempted = true ∧
      ∀ k, (Remote.handleDeleteFile s f bOk rOk).blobRemoveRequest = some k →
        k = lastSegment '/' f.url) ∧
    (∀ (s : Remote.EditorState) (f : Remote.FileItem) (bOk : Bool),
      (Remote.handleDeleteFile s f bOk true).state.files
          = s.files.filter (fun g => g.id != f.id) ∧
      (Remote.handleDeleteFile s f bOk false).state = s) := by
  refine ⟨?_, ?_, ?_⟩
  · intro s f b1 b2 rOk
    rfl
  · intro s f bOk rOk
    refine ⟨rfl, ?_⟩
    intro k hk
    by_cases h : lastSegment '/' f.url = "" <;>
      simp [Remote.handleDeleteFile, h] at hk
    exact hk.symm
  · intro s f bOk
    exact ⟨rfl, rfl⟩

/-- C7 witness: on a concrete file whose URL ends in "u-1.txt", the
blob-remove request carries exactly that tail segment. -/
theorem c7_deleteFile_best_effort_witness :
    "u-1.txt" = lastSegment '/' exRemoteFile.url :=
  (c7_deleteFile_best_effort.2.1 exRemoteHi exRemoteFile true true).2 "u-1.txt" (by decide)

/-- C8: local-variant round trip — starting from any persisted state,
after any finite sequence of operations, re-reading the two fixed
storage keys (as a page reload does) yields message and file lists
exactly equal to the in-memory lists the session left behind. -/
theorem c8_local_roundtrip (storedM : List LocalV.Message) (storedF : List LocalV.FileItem)
    (ops : List LocalV.LOp) :
    (LocalV.reload (LocalV.runOps (LocalV.initFromStorage storedM storedF) ops)).messages
        = (LocalV.runOps (LocalV.initFromStorage storedM storedF) ops).messages ∧
    (LocalV.reload (LocalV.runOps (LocalV.initFromStorage storedM storedF) ops)).files
        = (LocalV.runOps (LocalV.initFromStorage storedM storedF) ops).files := by
  have h := LocalV.runOps_mirrors ops (LocalV.initFromStorage storedM storedF) rfl rfl
  exact ⟨h.1, h.2⟩

/-- C9: for input text whose trimmed form is empty, save is a no-op in
both variants: the whole state — message list, persisted keys, and the
input text — is unchanged, whatever the store would have answered. -/
theorem c9_empty_save_noop (s : Remote.EditorState) (r : Remote.InsertResult)
    (sl : LocalV.EditorState) (uuid now : String)
    (hs : jsTrim s.text = "") (hl : jsTrim sl.text = "") :
    Remote.handleSave s r = s ∧ LocalV.handleSave sl uuid now = sl := by
  constructor
  · unfold Remote.handleSave
    rw [if_pos hs]
  · unfold LocalV.handleSave
    rw [if_pos hl]

/-- C9 witness: saving whitespace-only text "   " on concrete states in
both variants changes nothing. -/
theorem c9_empty_save_noop_witness :
    Remote.handleSave exRemoteWs Remote.InsertResult.fail = exRemoteWs ∧
    LocalV.handleSave exLocalWs "m-9" "2024-01-02T00:00:00Z" = exLocalWs :=
  c9_empty_save_noop exRemoteWs Remote.InsertResult.fail exLocalWs
    "m-9" "2024-01-02T00:00:00Z" (by decide) (by decide)

/-- C1 counterexample: in the local variant, uploading a two-file batch
whose per-file createdAt values were assigned in sequence (the second
strictly later) yields a file list that is NOT ordered by createdAt
descending — the loop pushes the files in input order and prepends the
batch as a whole, so the batch sits oldest-first inside the list. -/
theorem c1_counterexample :
    LocalV.filesSortedDesc ((LocalV.handleFileUpload exLocal0 exBatchInc).files) = false := by
  decide

/-- C1 (amended): newly added items are prepended — a saved local
message is prepended, a fully successful remote upload iteration
prepends its row individually, and the local uploadFiles prepends the
batch as a whole in the batch's input order; consequently the file list
is createdAt-descending after a local upload only when the batch's
timestamp sequence followed by the existing list's timestamps is
non-increasing (which fails for a multi-file batch whose per-file
timestamps strictly increase). -/
theorem c1_prepend_order (s : LocalV.EditorState) (uuid now : String)
    (batch : List (LocalV.RawFile × String × String))
    (sr : Remote.EditorState) (f : Remote.UploadFile) (u i t : String)
    (hne : jsTrim s.text ≠ "") :
    (LocalV.handleSave s uuid now).messages =
      { id := uuid, content := jsTrim s.text, createdAt := now } :: s.messages ∧
    (Remote.uploadStep sr f (Remote.FileOutcome.inserted u i t)).files =
      { id := i, name := f.name, size := f.size, type := f.type,
        url := Remote.publicUrl (Remote.storageKey u f.name), created_at := t }
        :: sr.files ∧
    (LocalV.handleFileUpload s batch).files = LocalV.newFileItems batch ++ s.files ∧
    (timesSortedDesc
        (batch.map (fun p => p.2.2) ++ s.files.map LocalV.FileItem.createdAt) = true →
      LocalV.filesSortedDesc ((LocalV.handleFileUpload s batch).files) = true) := by
  refine ⟨?_, rfl, rfl, ?_⟩
  · unfold LocalV.handleSave
    rw [if_neg hne]
    rfl
  · intro h
    have hmap : (LocalV.newFileItems batch).map LocalV.FileItem.createdAt
        = batch.map (fun p => p.2.2) := by
      simp [LocalV.newFileItems, List.map_map]
    unfold LocalV.filesSortedDesc
    have : (LocalV.handleFileUpload s batch).files.map LocalV.FileItem.createdAt
        = batch.map (fun p => p.2.2) ++ s.files.map LocalV.FileItem.createdAt := by
      simp [LocalV.handleFileUpload, LocalV.setFiles, hmap]
    rw [this]
    exact h

/-- C1 witness: a concrete non-empty save and a one-file batch upload
whose timestamp precedes nothing, so the descending order holds. -/
theorem c1_prepend_order_witness :
    (LocalV.handleSave exLocalHi "m-9" "2024-01-02T00:00:00Z").messages =
      { id := "m-9", content := jsTrim exLocalHi.text,
        createdAt := "2024-01-02T00:00:00Z" } :: exLocalHi.messages ∧
    LocalV.filesSortedDesc ((LocalV.handleFileUpload exLocalHi exBatch1).files) = true := by
  have h := c1_prepend_order exLocalHi "m-9" "2024-01-02T00:00:00Z" exBatch1
    exRemoteHi exUpA "u-a" "f-a" "2024-01-01T00:00:00Z" (by decide)
  exact ⟨h.1, h.2.2.2 (by decide)⟩

/-- C3: remote upload over a batch in which exactly one file's blob
upload fails and every other file fully succeeds: exactly N-1 new rows
are added to the file list, and every file after the failing one is
still processed — its row appears in the resulting list. -/
theorem c3_single_upload_failure (s : Remote.EditorState)
    (pre post : List (Remote.UploadFile × Remote.FileOutcome)) (f : Remote.UploadFile)
    (hpre : ∀ p ∈ pre, Remote.outcomeOk p.2 = true)
    (hpost : ∀ p ∈ post, Remote.outcomeOk p.2 = true) :
    (Remote.handleFileUpload s
        (pre ++ (f, Remote.FileOutcome.uploadFail) :: post)).files.length
      = s.files.length + (pre.length + post.length) ∧
    ∀ p ∈ post, ∀ r, Remote.rowOf p = some r →
      r ∈ (Remote.handleFileUpload s
            (pre ++ (f, Remote.FileOutcome.uploadFail) :: post)).files := by
  have heq := Remote.handleFileUpload_eq (pre ++ (f, Remote.FileOutcome.uploadFail) :: post) s
  have hfm : ((pre ++ (f, Remote.FileOutcome.uploadFail) :: post).filterMap Remote.rowOf)
      = pre.filterMap Remote.rowOf ++ post.filterMap Remote.rowOf := by
    simp [List.filterMap_append, List.filterMap_cons, Remote.rowOf]
  constructor
  · rw [heq]
    simp only [hfm]
    rw [List.length_append, List.length_reverse, List.length_append,
      Remote.filterMap_rowOf_length pre hpre, Remote.filterMap_rowOf_length post hpost]
    omega
  · intro p hp r hr
    rw [heq]
    simp only [hfm]
    have : r ∈ post.filterMap Remote.rowOf := List.mem_filterMap.mpr ⟨p, hp, hr⟩
    exact List.mem_append_left _ (List.mem_reverse.mpr (List.mem_append_right _ this))

/-- C3 witness: a three-file batch where the middle file's blob upload
fails — two rows are added and the third file's row is present. -/
theorem c3_single_upload_failure_witness :
    (Remote.handleFileUpload exRemoteHi
        ([(exUpA, exOutA)] ++ (exUpB, Remote.FileOutcome.uploadFail) :: [(exUpC, exOutC)])).files.length
      = exRemoteHi.files.length + (1 + 1) ∧
    ∀ p ∈ [(exUpC, exOutC)], ∀ r, Remote.rowOf p = some r →
      r ∈ (Remote.handleFileUpload exRemoteHi
            ([(exUpA, exOutA)] ++ (exUpB, Remote.FileOutcome.uploadFail) :: [(exUpC, exOutC)])).files := by
  have h := c3_single_upload_failure exRemoteHi [(exUpA, exOutA)] [(exUpC, exOutC)] exUpB
    (by decide) (by decide)
  exact ⟨h.1, h.2⟩

/-- C10: cross-list frame property — every message operation leaves the
file list unchanged and every file operation leaves the message list
unchanged, in both variants. -/
theorem c10_cross_list_frame :
    (∀ (s : Remote.EditorState) (r : Remote.InsertResult),
      (Remote.handleSave s r).files = s.files) ∧
    (∀ (s : Remote.EditorState) (msgId : String) (delOk : Bool),
      (Remote.handleDeleteMessage s msgId delOk).files = s.files) ∧
    (∀ (s : Remote.EditorState) (confirmed delOk : Bool),
      (Remote.handleDeleteAllMessages s confirmed delOk).files = s.files) ∧
    (∀ (s : Remote.EditorState) (batch : List (Remote.UploadFile × Remote.FileOutcome)),
      (Remote.handleFileUpload s batch).messages = s.messages) ∧
    (∀ (s : Remote.EditorState) (f : Remote.FileItem) (bOk rOk : Bool),
      (Remote.handleDeleteFile s f bOk rOk).state.messages = s.messages) ∧
    (∀ (s : Remote.EditorState) (confirmed delOk : Bool),
      (Remote.handleDeleteAllFiles s confirmed delOk).messages = s.messages) ∧
    (∀ (s : LocalV.EditorState) (uuid now : String),
      (LocalV.handleSave s uuid now).files = s.files) ∧
    (∀ (s : LocalV.EditorState) (msgId : String),
      (LocalV.handleDeleteMessage s msgId).files = s.files) ∧
    (∀ (s : LocalV.EditorState) (confirmed : Bool),
      (LocalV.handleDeleteAllMessages s confirmed).files = s.files) ∧
    (∀ (s : LocalV.EditorState) (batch : List (LocalV.RawFile × String × String)),
      (LocalV.handleFileUpload s batch).messages = s.messages) ∧
    (∀ (s : LocalV.EditorState) (fileId : String),
      (LocalV.handleDeleteFile s fileId).messages = s.messages) ∧
    (∀ (s : LocalV.EditorState) (confirmed : Bool),
      (LocalV.handleDeleteAllFiles s confirmed).messages = s.messages) := by
  refine ⟨?_, ?_, ?_, ?_, ?_, ?_, ?_, ?_, ?_, ?_, ?_, ?_⟩
  · intro s r
    unfold Remote.handleSave
    split
    · rfl
    · cases r <;> rfl
  · intro s msgId delOk
    unfold Remote.handleDeleteMessage
    split <;> rfl
  · intro s confirmed delOk
    unfold Remote.handleDeleteAllMessages
    split <;> [skip; rfl]
    split <;> rfl
  · intro s batch
    rw [Remote.handleFileUpload_eq]
  · intro s f bOk rOk
    unfold Remote.handleDeleteFile
    dsimp only
    split <;> rfl
  · intro s confirmed delOk
    unfold Remote.handleDeleteAllFiles
    split <;> [skip; rfl]
    split <;> rfl
  · intro s uuid now
    unfold LocalV.handleSave
    split <;> rfl
  · intro s msgId
    rfl
  · intro s confirmed
    unfold LocalV.handleDeleteAllMessages
    split <;> rfl
  · intro s batch
    rfl
  · intro s fileId
    rfl
  · intro s confirmed
    unfold LocalV.handleDeleteAllFiles
    split <;> rfl

end FileEditor
